import Mathlib

/-!
# Custom-HTTP-Server-Cpp: request parsing and response framing

A shallow embedding of `src/basic_http_server.cpp`.

* A `std::string` is a `List Char`; every `Char` stands for one C++ `char`.
* `size_t` is a `Nat` taken modulo `2^64`, `int` is an `Int` kept in the
  32-bit two's-complement range; every conversion between the two that the
  source performs implicitly is written out (`toInt`, `toSize`).
* `std::string::substr` throws `std::out_of_range` when the start offset is
  past the end: it returns an `Option`, `none` being the throw.
* The filesystem is a function from a path to the content of the file that
  `std::ifstream` manages to open there, `none` when the open fails.
-/

namespace HttpServer

/-! ## Machine integers -/

/-- The constant `BUFFER_SIZE` of the source (line 18). -/
def BUFFER_SIZE : Nat := 1024

/-- The value of `std::string::npos`, that is `2^64 - 1`. -/
def npos : Nat := 18446744073709551615

/-- Arithmetic on `size_t` wraps modulo `2^64`. -/
def wrapSize (n : Nat) : Nat := n % 18446744073709551616

/-- Conversion of a `size_t` to `int`: the low 32 bits, read as two's complement. -/
def toInt (n : Nat) : Int :=
  if n % 4294967296 < 2147483648 then ((n % 4294967296 : Nat) : Int)
  else ((n % 4294967296 : Nat) : Int) - 4294967296

/-- Conversion of an `int` to `size_t`: reduction modulo `2^64`. -/
def toSize (i : Int) : Nat := (i % 18446744073709551616).toNat

/-- Arithmetic on `int`, kept in the 32-bit range. -/
def wrapInt (i : Int) : Int := toInt (i % 4294967296).toNat

/-! ## The `std::string` operations the source uses -/

/-- Index of the first occurrence of `c` in `s`, if there is one. -/
def firstIndex (c : Char) : List Char → Option Nat
  | [] => none
  | x :: xs => if x = c then some 0 else (firstIndex c xs).map (· + 1)

/-- The call `s.find(c, pos)` for a one-character needle: the first index at
or after `pos` where `c` stands, `npos` when there is none (also when `pos`
is past the end). -/
def find (s : List Char) (c : Char) (pos : Nat) : Nat :=
  match firstIndex c (s.drop pos) with
  | some k => pos + k
  | none => npos

/-- The call `s.substr(pos, count)`: `none` (the `std::out_of_range` throw)
when `pos > s.size()`, otherwise at most `count` characters from `pos` on. -/
def substr (s : List Char) (pos count : Nat) : Option (List Char) :=
  if pos > s.length then none else some ((s.drop pos).take count)

/-! ## The functions of the source -/

/-- Lines 30-33. -/
def get_method (req : List Char) : Option (List Char) :=
  let space_pos : Int := toInt (find req ' ' 0)
  substr req 0 (toSize space_pos)

/-- The body of the `try` block of `get_path` (lines 47-49). -/
def get_path_try (req : List Char) : Option (List Char) :=
  let first_space : Int := toInt (wrapSize (find req ' ' 0 + 2))
  let next_space : Int := toInt (find req ' ' (toSize first_space))
  substr req (toSize first_space) (toSize (wrapInt (next_space - first_space)))

/-- Lines 45-54: the `catch` turns the throw into the empty string. -/
def get_path (req : List Char) : List Char :=
  match get_path_try req with
  | some p => p
  | none => []

/-- Lines 66-84: the content of the file, the empty string when it cannot be
opened (the exception is caught inside `render`). -/
def render (fs : List Char → Option (List Char)) (filepath : List Char) : List Char :=
  match fs filepath with
  | some content => content
  | none => []

/-- Lines 145-148: the default path. -/
def default_path (path : List Char) : List Char :=
  if path.isEmpty then "index.html".toList else path

/-- The fixed body of the 404 response (line 156). -/
def not_found_html : List Char := "<h1 style='color:red;'>404 Page Not Found</h1>".toList

/-- Lines 150-159: status, body and the path the extension is taken from. -/
def resolve (fs : List Char → Option (List Char)) (path : List Char) :
    List Char × List Char × List Char :=
  let status := "200".toList
  let html := render fs path
  if html.isEmpty then (not_found_html, "404".toList, "index.html".toList)
  else (html, status, path)

/-- Lines 162-163: the start offset of the extension, `dot_pos` after `dot_pos++`. -/
def ext_start (path : List Char) : Int :=
  wrapInt (toInt (find path '.' 0) + 1)

/-- Lines 162-165: the extension placed in the `Content-Type` header. -/
def get_ext (path : List Char) : Option (List Char) :=
  let dot_pos : Int := ext_start path
  let next_space : Int := toInt (find path ' ' (toSize dot_pos))
  substr path (toSize dot_pos) (toSize (wrapInt (next_space - dot_pos)))

/-- Lines 168-172: the response text. -/
def build_response (status ext html : List Char) : List Char :=
  "HTTP/1.1 ".toList ++ status ++ " OK\r\n".toList ++
  "Content-Type: text/".toList ++ ext ++ "\r\n".toList ++
  "Connection: close\r\n\r\n".toList ++
  html

/-- Lines 150-172: everything the loop body does once `path` is settled. -/
def serve (fs : List Char → Option (List Char)) (path : List Char) : Option (List Char) :=
  match resolve fs path with
  | (html, status, path) =>
    match get_ext path with
    | some ext => some (build_response status ext html)
    | none => none

/-- Lines 139-172: the response sent for the request text `request`, `none`
when an exception escapes the loop body. -/
def handle (fs : List Char → Option (List Char)) (request : List Char) : Option (List Char) :=
  match get_method request with
  | none => none
  | some _method => serve fs (default_path (get_path request))

/-! ## Characterisations used by the proofs -/

/-- The part of `s` before its first space, all of `s` when it has none. -/
def upToSpace (s : List Char) : List Char :=
  match firstIndex ' ' s with
  | some k => s.take k
  | none => s

/-- Where `get_path` starts reading: two past the first space, and `1` (the
wrapped value of `npos + 2`) when the request has no space. -/
def pathStart (req : List Char) : Nat :=
  match firstIndex ' ' req with
  | some i => i + 2
  | none => 1

/-- Where the extension starts: one past the first dot, and `0` (the value
of `-1 + 1`) when the path has no dot. -/
def extStart (path : List Char) : Nat :=
  match firstIndex '.' path with
  | some k => k + 1
  | none => 0

/-! ## Sample data for the concrete checks -/

/-- A 50-byte page. -/
def indexBody : List Char := "<html><body><h1>Hello, World!</h1></body></html>\r\n".toList

/-- A working directory with a few files; `empty.txt` exists and is empty. -/
def siteFs (p : List Char) : Option (List Char) :=
  if p = "index.html".toList then some indexBody
  else if p = "style.css".toList then some "body { margin: 0 }".toList
  else if p = "a.min.css".toList then some "a{}".toList
  else if p = "README".toList then some "read me".toList
  else if p = "empty.txt".toList then some []
  else if p = "a.css\r\nSet-Cookie:x=1\r\n\r\nboo".toList then some "body".toList
  else none

/-! ## Reading a response the way a client does

The vocabulary of the framing property: the header block is what stands
before the first blank line (`"\r\n\r\n"`), its lines are separated by
`"\r\n"`, the first of them is the status line, the others are header lines. -/

/-- Split at the first `"\r\n\r\n"`: what stands before it and what follows. -/
def cutBlank : List Char → Option (List Char × List Char)
  | [] => none
  | c :: rest =>
    if (c :: rest).take 4 = "\r\n\r\n".toList then some ([], rest.drop 3)
    else (cutBlank rest).map (fun hb => (c :: hb.1, hb.2))

/-- Put `c` in front of the first line. -/
def consLine (c : Char) : List (List Char) → List (List Char)
  | [] => [[c]]
  | l :: ls => (c :: l) :: ls

/-- The lines of a text whose lines are separated by `"\r\n"`. -/
def splitCRLF : List Char → List (List Char)
  | [] => [[]]
  | [c] => [[c]]
  | c :: d :: rest =>
    if c = '\r' ∧ d = '\n' then [] :: splitCRLF rest
    else consLine c (splitCRLF (d :: rest))

/-- Whether `"\r\n"` occurs in the text. -/
def hasCRLF : List Char → Bool
  | [] => false
  | c :: rest => decide ((c :: rest).take 2 = "\r\n".toList) || hasCRLF rest

/-- The lines of the header block and the text after the blank line. -/
def headerLines (resp : List Char) : Option (List (List Char) × List Char) :=
  (cutBlank resp).map (fun hb => (splitCRLF hb.1, hb.2))

/-- A `Content-Type` header line. -/
def isContentType (line : List Char) : Bool :=
  line.take 13 == "Content-Type:".toList

/-- The framing property: after the status line the header block has exactly
one `Content-Type` line and exactly one `Connection: close` line, and what
follows the first blank line is exactly `body`. -/
def isFramed (resp body : List Char) : Bool :=
  match headerLines resp with
  | none => false
  | some (lines, rest) =>
    decide (lines.tail.countP isContentType = 1) &&
    decide (lines.tail.count "Connection: close".toList = 1) &&
    decide (rest = body)

/-- A request whose path carries line breaks. -/
def splitRequest : List Char :=
  "GET /a.css\r\nSet-Cookie:x=1\r\n\r\nboo HTTP/1.1\r\n\r\n".toList

/-! ### Machine integers -/

theorem toInt_of_lt {n : Nat} (h : n < 2147483648) : toInt n = (n : Int) := by
  unfold toInt
  split <;> omega

theorem toInt_npos : toInt npos = -1 := by decide

theorem toSize_natCast {n : Nat} (h : n < 18446744073709551616) : toSize (n : Int) = n := by
  unfold toSize; omega

theorem wrapInt_of_range {i : Int} (h1 : -2147483648 ≤ i) (h2 : i < 2147483648) :
    wrapInt i = i := by
  unfold wrapInt toInt
  split <;> omega

theorem toSize_neg {n : Nat} (h0 : 0 < n) (h : n ≤ 18446744073709551616) :
    toSize (-(n : Int)) = 18446744073709551616 - n := by
  unfold toSize; omega

/-! ### Searching -/

theorem firstIndex_lt {c : Char} : ∀ {s : List Char} {k : Nat},
    firstIndex c s = some k → k < s.length
  | [], _, h => by simp [firstIndex] at h
  | x :: xs, k, h => by
    unfold firstIndex at h
    split at h
    · simp at h; subst h; simp
    · cases hx : firstIndex c xs with
      | none => simp [hx] at h
      | some j =>
        have := firstIndex_lt hx
        simp [hx] at h; subst h; simp; omega

theorem firstIndex_eq_none {c : Char} : ∀ {s : List Char}, firstIndex c s = none ↔ c ∉ s
  | [] => by simp [firstIndex]
  | x :: xs => by
    unfold firstIndex
    by_cases hx : x = c
    · simp [hx]
    · have ih := firstIndex_eq_none (c := c) (s := xs)
      have hx2 : ¬ c = x := fun h => hx h.symm
      simp [hx, hx2, ih]

theorem firstIndex_append {c : Char} : ∀ (a b : List Char), c ∉ a →
    firstIndex c (a ++ c :: b) = some a.length
  | [], b, _ => by simp [firstIndex]
  | x :: xs, b, h => by
    have hx : ¬ x = c := fun e => h (by simp [e])
    have hxs : c ∉ xs := fun e => h (by simp [e])
    simp [firstIndex, hx, firstIndex_append xs b hxs]

theorem not_mem_take_firstIndex {c : Char} : ∀ {s : List Char} {k : Nat},
    firstIndex c s = some k → c ∉ s.take k
  | [], _, h => by simp [firstIndex] at h
  | x :: xs, k, h => by
    unfold firstIndex at h
    split at h
    · simp at h; subst h; simp
    · rename_i hx
      cases hj : firstIndex c xs with
      | none => simp [hj] at h
      | some j =>
        have ih := not_mem_take_firstIndex hj
        simp [hj] at h; subst h
        have hx2 : ¬ c = x := fun e => hx e.symm
        simp [List.take_succ_cons, hx2, ih]

theorem not_mem_upToSpace (s : List Char) : ' ' ∉ upToSpace s := by
  unfold upToSpace
  cases h : firstIndex ' ' s with
  | none => exact firstIndex_eq_none.mp h
  | some k => exact not_mem_take_firstIndex h

theorem length_upToSpace_le (s : List Char) : (upToSpace s).length ≤ s.length := by
  unfold upToSpace
  cases h : firstIndex ' ' s with
  | none => exact Nat.le_refl _
  | some k => simp [List.length_take]

/-! ### The three extractions, without machine integers -/

theorem find_zero (s : List Char) (c : Char) :
    find s c 0 = match firstIndex c s with
      | some k => k
      | none => npos := by
  unfold find
  cases h : firstIndex c s <;> simp [h]

theorem substr_span (s : List Char) (p : Nat) (hlen : s.length + 2 < 2147483648)
    (hp : p ≤ s.length + 1) :
    substr s (toSize (p : Int))
        (toSize (wrapInt (toInt (find s ' ' (toSize (p : Int))) - (p : Int))))
      = if p > s.length then none else some (upToSpace (s.drop p)) := by
  have hps : toSize (p : Int) = p := toSize_natCast (by omega)
  rw [hps]
  unfold substr
  by_cases hgt : p > s.length
  · simp [hgt]
  · simp only [hgt, if_false]
    congr 1
    unfold find upToSpace
    cases h : firstIndex ' ' (s.drop p) with
    | none =>
      simp only []
      rw [toInt_npos]
      have e1 : (-1 : Int) - (p : Int) = -((p + 1 : Nat) : Int) := by push_cast; omega
      rw [e1, wrapInt_of_range (by omega) (by omega), toSize_neg (by omega) (by omega)]
      apply List.take_of_length_le
      simp only [List.length_drop]
      omega
    | some k =>
      have hk := firstIndex_lt h
      simp only [List.length_drop] at hk
      simp only []
      rw [toInt_of_lt (by omega)]
      have e1 : ((p + k : Nat) : Int) - (p : Int) = (k : Int) := by push_cast; omega
      rw [e1, wrapInt_of_range (by omega) (by omega), toSize_natCast (by omega)]

theorem first_space_eq (req : List Char) (hlen : req.length + 2 < 2147483648) :
    toInt (wrapSize (find req ' ' 0 + 2)) = (pathStart req : Int) := by
  rw [find_zero]
  unfold pathStart
  cases h : firstIndex ' ' req with
  | none => decide
  | some i =>
    have hi := firstIndex_lt h
    simp only []
    have : wrapSize (i + 2) = i + 2 := by unfold wrapSize; omega
    rw [this, toInt_of_lt (by omega)]

theorem pathStart_le (req : List Char) : pathStart req ≤ req.length + 1 := by
  unfold pathStart
  cases h : firstIndex ' ' req with
  | none => simp
  | some i => have := firstIndex_lt h; simp only []; omega

theorem get_path_try_eq (req : List Char) (hlen : req.length + 2 < 2147483648) :
    get_path_try req = if pathStart req > req.length then none
      else some (upToSpace (req.drop (pathStart req))) := by
  unfold get_path_try
  simp only [first_space_eq req hlen]
  exact substr_span req (pathStart req) hlen (pathStart_le req)

theorem get_path_eq (req : List Char) (hlen : req.length + 2 < 2147483648) :
    get_path req = upToSpace (req.drop (pathStart req)) := by
  unfold get_path
  rw [get_path_try_eq req hlen]
  by_cases hgt : pathStart req > req.length
  · have : req.drop (pathStart req) = [] := List.drop_eq_nil_of_le (by omega)
    simp [hgt, this, upToSpace, firstIndex]
  · simp [hgt]

theorem get_method_isSome (req : List Char) : ∃ m, get_method req = some m := by
  unfold get_method substr
  simp

theorem get_method_eq (req : List Char) (hlen : req.length < 2147483648) :
    get_method req = some (upToSpace req) := by
  unfold get_method substr
  simp only [find_zero, List.drop_zero, gt_iff_lt, Nat.not_lt_zero, if_false]
  congr 1
  unfold upToSpace
  cases h : firstIndex ' ' req with
  | none =>
    simp only []
    rw [toInt_npos]
    apply List.take_of_length_le
    have : toSize (-1) = 18446744073709551615 := by decide
    rw [this]; omega
  | some k =>
    have hk := firstIndex_lt h
    simp only []
    rw [toInt_of_lt (by omega), toSize_natCast (by omega)]

theorem ext_start_eq (path : List Char) (hlen : path.length + 2 < 2147483648) :
    ext_start path = (extStart path : Int) := by
  unfold ext_start extStart
  rw [find_zero]
  cases h : firstIndex '.' path with
  | none => decide
  | some k =>
    have hk := firstIndex_lt h
    simp only []
    rw [toInt_of_lt (by omega), wrapInt_of_range (by omega) (by omega)]
    push_cast; rfl

theorem extStart_le (path : List Char) : extStart path ≤ path.length := by
  unfold extStart
  cases h : firstIndex '.' path with
  | none => simp
  | some k => have := firstIndex_lt h; simp only []; omega

theorem get_ext_eq (path : List Char) (hlen : path.length + 2 < 2147483648) :
    get_ext path = some (upToSpace (path.drop (extStart path))) := by
  unfold get_ext
  simp only [ext_start_eq path hlen]
  rw [substr_span path (extStart path) hlen (by have := extStart_le path; omega)]
  have := extStart_le path
  simp; omega

/-! ### Shapes of requests -/

theorem upToSpace_of_not_mem {s : List Char} (h : ' ' ∉ s) : upToSpace s = s := by
  unfold upToSpace
  rw [firstIndex_eq_none.mpr h]

theorem upToSpace_append {a : List Char} (b : List Char) (h : ' ' ∉ a) :
    upToSpace (a ++ ' ' :: b) = a := by
  unfold upToSpace
  rw [firstIndex_append a b h]
  simp

theorem pathStart_append {a : List Char} (b : List Char) (h : ' ' ∉ a) :
    pathStart (a ++ ' ' :: b) = a.length + 2 := by
  unfold pathStart
  rw [firstIndex_append a b h]

theorem get_path_shape (M P rest : List Char) (c : Char) (hM : ' ' ∉ M) (hP : ' ' ∉ P)
    (hlen : (M ++ ' ' :: c :: (P ++ ' ' :: rest)).length + 2 < 2147483648) :
    get_path (M ++ ' ' :: c :: (P ++ ' ' :: rest)) = P := by
  rw [get_path_eq _ hlen, pathStart_append _ hM, List.drop_append]
  exact upToSpace_append rest hP

/-! ### The effective path -/

theorem not_mem_get_path (req : List Char) (hlen : req.length + 2 < 2147483648) :
    ' ' ∉ get_path req := by
  rw [get_path_eq req hlen]
  exact not_mem_upToSpace _

theorem length_get_path_le (req : List Char) (hlen : req.length + 2 < 2147483648) :
    (get_path req).length ≤ req.length := by
  rw [get_path_eq req hlen]
  have := length_upToSpace_le (req.drop (pathStart req))
  simp only [List.length_drop] at this
  omega

theorem default_path_cases (path : List Char) :
    (path = [] ∧ default_path path = "index.html".toList) ∨
    (path ≠ [] ∧ default_path path = path) := by
  unfold default_path
  cases path with
  | nil => left; simp
  | cons x xs => right; simp

theorem not_mem_effective (req : List Char) (hlen : req.length + 2 < 2147483648) :
    ' ' ∉ default_path (get_path req) := by
  rcases default_path_cases (get_path req) with ⟨_, h⟩ | ⟨_, h⟩
  · rw [h]; decide
  · rw [h]; exact not_mem_get_path req hlen

theorem length_effective_le (req : List Char) (hlen : req.length + 2 < 2147483648) :
    (default_path (get_path req)).length ≤ req.length + 10 := by
  rcases default_path_cases (get_path req) with ⟨_, h⟩ | ⟨_, h⟩
  · rw [h]; simp
  · rw [h]; have := length_get_path_le req hlen; omega

theorem get_ext_of_no_space (path : List Char) (hlen : path.length + 2 < 2147483648)
    (hsp : ' ' ∉ path) : get_ext path = some (path.drop (extStart path)) := by
  rw [get_ext_eq path hlen]
  congr 1
  exact upToSpace_of_not_mem (fun h => hsp (List.mem_of_mem_drop h))

theorem get_ext_index : get_ext "index.html".toList = some "html".toList := by decide

theorem get_ext_of_no_dot (path : List Char) (hlen : path.length + 2 < 2147483648)
    (hsp : ' ' ∉ path) (hdot : '.' ∉ path) : get_ext path = some path := by
  rw [get_ext_of_no_space path hlen hsp]
  unfold extStart
  rw [firstIndex_eq_none.mpr hdot]
  rfl

theorem get_path_of_no_space (req : List Char) (hlen : req.length + 2 < 2147483648)
    (hsp : ' ' ∉ req) : get_path req = req.drop 1 := by
  rw [get_path_eq req hlen]
  unfold pathStart
  rw [firstIndex_eq_none.mpr hsp]
  exact upToSpace_of_not_mem (fun h => hsp (List.mem_of_mem_drop h))

/-! ### Resolution -/

theorem resolve_found {fs : List Char → Option (List Char)} {path B : List Char}
    (hB : fs path = some B) (hne : B ≠ []) :
    resolve fs path = (B, "200".toList, path) := by
  unfold resolve render
  rw [hB]
  cases B with
  | nil => exact absurd rfl hne
  | cons x xs => simp

theorem resolve_missing {fs : List Char → Option (List Char)} {path : List Char}
    (h : fs path = none ∨ fs path = some []) :
    resolve fs path = (not_found_html, "404".toList, "index.html".toList) := by
  unfold resolve render
  rcases h with h | h <;> rw [h] <;> simp

theorem serve_found {fs : List Char → Option (List Char)} {path B ext : List Char}
    (hB : fs path = some B) (hne : B ≠ []) (hext : get_ext path = some ext) :
    serve fs path = some (build_response "200".toList ext B) := by
  unfold serve
  rw [resolve_found hB hne]
  simp only [hext]

theorem serve_missing {fs : List Char → Option (List Char)} {path : List Char}
    (h : fs path = none ∨ fs path = some []) :
    serve fs path = some (build_response "404".toList "html".toList not_found_html) := by
  unfold serve
  rw [resolve_missing h]
  simp only [get_ext_index]

theorem handle_eq_serve (fs : List Char → Option (List Char)) (req : List Char) :
    handle fs req = serve fs (default_path (get_path req)) := by
  unfold handle
  obtain ⟨m, hm⟩ := get_method_isSome req
  rw [hm]

/-! ### Response text -/

theorem build_response_200 (ext B : List Char) :
    build_response "200".toList ext B =
      "HTTP/1.1 200 OK\r\nContent-Type: text/".toList ++ ext ++
        "\r\nConnection: close\r\n\r\n".toList ++ B := by
  unfold build_response
  simp only [List.append_assoc]
  rfl

theorem build_response_404 :
    build_response "404".toList "html".toList not_found_html =
      "HTTP/1.1 404 OK\r\nContent-Type: text/html\r\nConnection: close\r\n\r\n<h1 style='color:red;'>404 Page Not Found</h1>".toList := by
  decide

theorem fits_bound {req : List Char} (hfit : req.length ≤ BUFFER_SIZE) :
    req.length + 2 < 2147483648 := by
  unfold BUFFER_SIZE at hfit
  omega

theorem effective_bound {req : List Char} (hfit : req.length ≤ BUFFER_SIZE) :
    (default_path (get_path req)).length + 2 < 2147483648 := by
  have h1 := length_effective_le req (fits_bound hfit)
  unfold BUFFER_SIZE at hfit
  omega

theorem resolve_path_cases (fs : List Char → Option (List Char)) (path : List Char) :
    (resolve fs path).2.2 = "index.html".toList ∨ (resolve fs path).2.2 = path := by
  unfold resolve
  simp only []
  split
  · left; rfl
  · right; rfl

theorem serve_eq (fs : List Char → Option (List Char)) (path : List Char) :
    serve fs path = (get_ext (resolve fs path).2.2).map
      (fun ext => build_response (resolve fs path).2.1 ext (resolve fs path).1) := by
  unfold serve
  cases h : get_ext (resolve fs path).2.2 <;> simp [h]

/-! ### Framing -/

theorem take_two_ne {c : Char} {a : List Char} (h : hasCRLF (c :: a) = false)
    (x : Char) (t : List Char) (hx : x ≠ '\n') :
    (c :: (a ++ x :: t)).take 2 ≠ "\r\n".toList := by
  intro e
  cases a with
  | nil =>
    have e2 : [c, x] = ['\r', '\n'] := e
    simp at e2
    exact hx e2.2
  | cons d a2 =>
    have e2 : [c, d] = ['\r', '\n'] := e
    have h2 : (c :: d :: a2).take 2 = "\r\n".toList := e2
    simp [hasCRLF, h2] at h

theorem take_four_ne {c : Char} {a : List Char} (h : hasCRLF (c :: a) = false)
    (x : Char) (t : List Char) (hx : x ≠ '\n') :
    (c :: (a ++ x :: t)).take 4 ≠ "\r\n\r\n".toList := by
  intro e
  apply take_two_ne h x t hx
  have e2 := congrArg (List.take 2) e
  rw [List.take_take] at e2
  exact e2

theorem hasCRLF_tail {c : Char} {a : List Char} (h : hasCRLF (c :: a) = false) :
    hasCRLF a = false := by
  simp only [hasCRLF, Bool.or_eq_false_iff] at h
  exact h.2

theorem hasCRLF_append_of_not_mem : ∀ (a b : List Char), '\r' ∉ a →
    hasCRLF (a ++ b) = hasCRLF b
  | [], b, _ => rfl
  | c :: a, b, h => by
    have hc : ¬ c = '\r' := fun e => h (by simp [e])
    have ha : '\r' ∉ a := fun e => h (by simp [e])
    have ih := hasCRLF_append_of_not_mem a b ha
    have h2 : (c :: (a ++ b)).take 2 ≠ "\r\n".toList := by
      intro e
      cases hab : a ++ b with
      | nil => rw [hab] at e; simp at e
      | cons d r =>
        rw [hab] at e
        have e2 : [c, d] = ['\r', '\n'] := e
        simp at e2
        exact hc e2.1
    rw [List.cons_append, hasCRLF, decide_eq_false h2, Bool.false_or]
    exact ih

theorem cutBlank_end : ∀ (a t : List Char), hasCRLF a = false →
    cutBlank (a ++ '\r' :: '\n' :: '\r' :: '\n' :: t) = some (a, t)
  | [], t, _ => by simp [cutBlank]
  | c :: a, t, h => by
    have hne := take_four_ne h '\r' ('\n' :: '\r' :: '\n' :: t) (by decide)
    have ih := cutBlank_end a t (hasCRLF_tail h)
    rw [List.cons_append, cutBlank, if_neg hne, ih]
    rfl

theorem cutBlank_line : ∀ (a t : List Char) (x : Char), hasCRLF a = false → x ≠ '\r' →
    cutBlank (a ++ '\r' :: '\n' :: x :: t)
      = (cutBlank (x :: t)).map (fun hb => (a ++ '\r' :: '\n' :: hb.1, hb.2))
  | [], t, x, _, hx => by
    have h1 : ('\r' :: '\n' :: x :: t).take 4 ≠ "\r\n\r\n".toList := by
      intro e
      have e2 : '\r' :: '\n' :: x :: t.take 1 = ['\r', '\n', '\r', '\n'] := e
      simp at e2
      exact hx e2.1
    have h2 : ('\n' :: x :: t).take 4 ≠ "\r\n\r\n".toList := by
      intro e
      have e2 : '\n' :: x :: t.take 2 = ['\r', '\n', '\r', '\n'] := e
      simp at e2
    rw [List.nil_append, cutBlank, if_neg h1, cutBlank, if_neg h2]
    cases cutBlank (x :: t) <;> simp
  | c :: a, t, x, h, hx => by
    have hne := take_four_ne h '\r' ('\n' :: x :: t) (by decide)
    have ih := cutBlank_line a t x (hasCRLF_tail h) hx
    rw [List.cons_append, cutBlank, if_neg hne, ih]
    cases cutBlank (x :: t) <;> simp

theorem splitCRLF_line : ∀ (a t : List Char), hasCRLF a = false →
    splitCRLF (a ++ '\r' :: '\n' :: t) = a :: splitCRLF t
  | [], t, _ => by simp [splitCRLF]
  | [c], t, _ => by
    simp [splitCRLF, consLine]
  | c :: d :: a, t, h => by
    have hne : ¬ (c = '\r' ∧ d = '\n') := by
      intro e
      simp [hasCRLF, e.1, e.2] at h
    have ih := splitCRLF_line (d :: a) t (hasCRLF_tail h)
    rw [List.cons_append] at ih
    rw [List.cons_append, List.cons_append, splitCRLF, if_neg hne, ih]
    rfl

theorem splitCRLF_single : ∀ (a : List Char), hasCRLF a = false → splitCRLF a = [a]
  | [], _ => rfl
  | [c], _ => rfl
  | c :: d :: a, h => by
    have hne : ¬ (c = '\r' ∧ d = '\n') := by
      intro e
      simp [hasCRLF, e.1, e.2] at h
    have ih := splitCRLF_single (d :: a) (hasCRLF_tail h)
    rw [splitCRLF, if_neg hne, ih]
    rfl

/-- Three lines free of line breaks, the last two not starting with a
carriage return, followed by a blank line and a body, are read back as such. -/
theorem headerLines_three (l1 l2 l3 body : List Char) (x2 x3 : Char)
    (h1 : hasCRLF l1 = false) (h2 : hasCRLF (x2 :: l2) = false)
    (h3 : hasCRLF (x3 :: l3) = false) (hx2 : x2 ≠ '\r') (hx3 : x3 ≠ '\r') :
    headerLines (l1 ++ '\r' :: '\n' :: x2 :: (l2 ++ '\r' :: '\n' :: x3 ::
        (l3 ++ '\r' :: '\n' :: '\r' :: '\n' :: body)))
      = some ([l1, x2 :: l2, x3 :: l3], body) := by
  have e3 : cutBlank (x3 :: (l3 ++ '\r' :: '\n' :: '\r' :: '\n' :: body))
      = some (x3 :: l3, body) := cutBlank_end (x3 :: l3) body h3
  have e2 : cutBlank (x2 :: (l2 ++ '\r' :: '\n' :: x3 ::
      (l3 ++ '\r' :: '\n' :: '\r' :: '\n' :: body)))
      = some (x2 :: l2 ++ '\r' :: '\n' :: x3 :: l3, body) := by
    have := cutBlank_line (x2 :: l2) (l3 ++ '\r' :: '\n' :: '\r' :: '\n' :: body) x3 h2 hx3
    rw [List.cons_append] at this
    rw [this, e3]
    rfl
  have e1 := cutBlank_line l1 (l2 ++ '\r' :: '\n' :: x3 ::
      (l3 ++ '\r' :: '\n' :: '\r' :: '\n' :: body)) x2 h1 hx2
  unfold headerLines
  rw [e1, e2]
  simp only [Option.map_some']
  have s1 := splitCRLF_line l1 (x2 :: l2 ++ '\r' :: '\n' :: x3 :: l3) h1
  have s2 := splitCRLF_line (x2 :: l2) (x3 :: l3) h2
  have s3 := splitCRLF_single (x3 :: l3) h3
  rw [s1, s2, s3]

theorem resolve_status_cases (fs : List Char → Option (List Char)) (path : List Char) :
    (resolve fs path).2.1 = "200".toList ∨ (resolve fs path).2.1 = "404".toList := by
  unfold resolve
  simp only []
  split
  · right; rfl
  · left; rfl

theorem resolve_path_of_404 {fs : List Char → Option (List Char)} {path : List Char}
    (h : (resolve fs path).2.1 = "404".toList) :
    (resolve fs path).2.2 = "index.html".toList := by
  unfold resolve at h ⊢
  simp only [] at h ⊢
  split
  · rfl
  · rename_i hne
    rw [if_neg hne] at h
    have h2 : "200".toList = "404".toList := h
    exact absurd h2 (by decide)

theorem build_response_lines (status ext body : List Char) :
    build_response status ext body =
      ("HTTP/1.1 ".toList ++ status ++ " OK".toList) ++ '\r' :: '\n' :: 'C' ::
        (("ontent-Type: text/".toList ++ ext) ++ '\r' :: '\n' :: 'C' ::
          ("onnection: close".toList ++ '\r' :: '\n' :: '\r' :: '\n' :: body)) := by
  unfold build_response
  simp only [List.append_assoc]
  rfl

theorem isFramed_of_lines {resp body sl ext : List Char}
    (h : headerLines resp = some ([sl, "Content-Type: text/".toList ++ ext,
      "Connection: close".toList], body)) :
    isFramed resp body = true := by
  have c1 : List.countP isContentType
      ["Content-Type: text/".toList ++ ext, "Connection: close".toList] = 1 := rfl
  have c2 : List.count "Connection: close".toList
      ["Content-Type: text/".toList ++ ext, "Connection: close".toList] = 1 := rfl
  unfold isFramed
  rw [h]
  simp only [List.tail_cons, decide_eq_true c1, decide_eq_true c2, decide_True, Bool.and_self]

/-! ## The claims -/

/-- C1: on a request `M ++ " /" ++ P ++ " HTTP/1.1\r\n" ++ T` that fits the
receive buffer, with no space in `M` nor in `P`, `get_method` returns exactly
`M` and `get_path` returns exactly `P`. -/
theorem get_method_get_path_well_formed (M P T : List Char)
    (hM : ' ' ∉ M) (hP : ' ' ∉ P)
    (hfit : (M ++ " /".toList ++ P ++ " HTTP/1.1\r\n".toList ++ T).length ≤ BUFFER_SIZE) :
    get_method (M ++ " /".toList ++ P ++ " HTTP/1.1\r\n".toList ++ T) = some M ∧
    get_path (M ++ " /".toList ++ P ++ " HTTP/1.1\r\n".toList ++ T) = P := by
  have e : M ++ " /".toList ++ P ++ " HTTP/1.1\r\n".toList ++ T
      = M ++ ' ' :: '/' :: (P ++ ' ' :: ("HTTP/1.1\r\n".toList ++ T)) := by
    have h1 : " /".toList = [' ', '/'] := rfl
    have h2 : " HTTP/1.1\r\n".toList = ' ' :: "HTTP/1.1\r\n".toList := rfl
    rw [h1, h2]
    simp only [List.append_assoc, List.cons_append, List.nil_append]
  rw [e] at hfit ⊢
  have hlen := fits_bound hfit
  constructor
  · rw [get_method_eq _ (by omega), upToSpace_append _ hM]
  · exact get_path_shape M P _ '/' hM hP hlen

/-- Scenario 1 of the specification, for C1. -/
theorem get_method_get_path_well_formed_witness :
    get_method "GET /index.html HTTP/1.1\r\n\r\n".toList = some "GET".toList ∧
    get_path "GET /index.html HTTP/1.1\r\n\r\n".toList = "index.html".toList :=
  get_method_get_path_well_formed "GET".toList "index.html".toList "\r\n".toList
    (by decide) (by decide) (by decide)

/-- C2: when the effective path names a file with non-empty content `B`, the
response is exactly the 200 status line, the `Content-Type: text/` line with
the extension computed from the path, `Connection: close`, a blank line, and
then `B` unchanged. -/
theorem found_response_exact (fs : List Char → Option (List Char)) (req B : List Char)
    (hfit : req.length ≤ BUFFER_SIZE)
    (hB : fs (default_path (get_path req)) = some B) (hne : B ≠ []) :
    ∃ ext, get_ext (default_path (get_path req)) = some ext ∧
      handle fs req = some ("HTTP/1.1 200 OK\r\nContent-Type: text/".toList ++ ext ++
        "\r\nConnection: close\r\n\r\n".toList ++ B) := by
  have hext := get_ext_eq (default_path (get_path req)) (effective_bound hfit)
  refine ⟨_, hext, ?_⟩
  rw [handle_eq_serve, serve_found hB hne hext, build_response_200]

/-- Scenario 1 of the specification, for C2: a 50-byte `index.html`. -/
theorem found_response_exact_witness :
    indexBody.length = 50 ∧
    handle siteFs "GET /index.html HTTP/1.1\r\n\r\n".toList =
      some ("HTTP/1.1 200 OK\r\nContent-Type: text/html\r\nConnection: close\r\n\r\n".toList
        ++ indexBody) := by
  obtain ⟨ext, h1, h2⟩ := found_response_exact siteFs
    "GET /index.html HTTP/1.1\r\n\r\n".toList indexBody (by decide) (by decide) (by decide)
  have h3 : get_ext (default_path (get_path "GET /index.html HTTP/1.1\r\n\r\n".toList))
      = some "html".toList := by decide
  have h4 : ext = "html".toList := Option.some.inj (h1.symm.trans h3)
  subst h4
  exact ⟨by decide, h2⟩

/-- C3: when the effective path names no file, or a file with empty content,
the response is exactly the fixed 404 text: status 404, content type
`text/html`, and a body containing `404 Page Not Found`. -/
theorem missing_response_exact (fs : List Char → Option (List Char)) (req : List Char)
    (h : fs (default_path (get_path req)) = none ∨
      fs (default_path (get_path req)) = some []) :
    handle fs req = some "HTTP/1.1 404 OK\r\nContent-Type: text/html\r\nConnection: close\r\n\r\n<h1 style='color:red;'>404 Page Not Found</h1>".toList ∧
    "404 Page Not Found".toList <:+: not_found_html := by
  constructor
  · rw [handle_eq_serve, serve_missing h, build_response_404]
  · exact ⟨"<h1 style='color:red;'>".toList, "</h1>".toList, by decide⟩

/-- Scenario 2 of the specification, for C3: `missing.css` does not exist. -/
theorem missing_response_exact_witness :
    siteFs (default_path (get_path "GET /missing.css HTTP/1.1\r\n\r\n".toList)) = none ∧
    handle siteFs "GET /missing.css HTTP/1.1\r\n\r\n".toList = some "HTTP/1.1 404 OK\r\nContent-Type: text/html\r\nConnection: close\r\n\r\n<h1 style='color:red;'>404 Page Not Found</h1>".toList :=
  ⟨by decide,
    (missing_response_exact siteFs "GET /missing.css HTTP/1.1\r\n\r\n".toList
      (Or.inl (by decide))).1⟩

/-- C4: on scenario 3, `GET  HTTP/1.1` with nothing between the two spaces,
the search for the second space (from offset 5) fails, no exception is thrown
and `get_path` returns the version token and the rest instead of the empty
string: the effective path is not `index.html` and, with an existing
non-empty `index.html`, the response is the 404 text, not the 200 response of
`GET /index.html HTTP/1.1`. -/
theorem double_space_request_not_defaulted :
    find "GET  HTTP/1.1\r\n\r\n".toList ' ' 5 = npos ∧
    get_path "GET  HTTP/1.1\r\n\r\n".toList = "HTTP/1.1\r\n\r\n".toList ∧
    default_path (get_path "GET  HTTP/1.1\r\n\r\n".toList) ≠ "index.html".toList ∧
    handle siteFs "GET  HTTP/1.1\r\n\r\n".toList = some "HTTP/1.1 404 OK\r\nContent-Type: text/html\r\nConnection: close\r\n\r\n<h1 style='color:red;'>404 Page Not Found</h1>".toList ∧
    handle siteFs "GET  HTTP/1.1\r\n\r\n".toList ≠
      handle siteFs "GET /index.html HTTP/1.1\r\n\r\n".toList := by
  decide

/-- C5: the code takes the extension after the FIRST dot of the path: the
existing non-empty file `a.min.css` is sent as `text/min.css`, not `text/css`. -/
theorem ext_after_first_dot :
    handle siteFs "GET /a.min.css HTTP/1.1\r\n\r\n".toList =
      some "HTTP/1.1 200 OK\r\nContent-Type: text/min.css\r\nConnection: close\r\n\r\na{}".toList := by
  decide

/-- C7: `get_path` does not return the empty string on a request without a
space (it returns the request from offset 1 on), nor when the search for the
second space fails (it returns the rest of the request). -/
theorem get_path_search_fails :
    get_path "GET".toList = "ET".toList ∧
    get_path "GET /index.html".toList = "index.html".toList := by
  decide

/-- C8: for a path without a dot the extension is the whole path: the
existing non-empty file `README` is sent as `text/README`, not `text/`. -/
theorem ext_of_dotless_path :
    handle siteFs "GET /README HTTP/1.1\r\n\r\n".toList =
      some "HTTP/1.1 200 OK\r\nContent-Type: text/README\r\nConnection: close\r\n\r\nread me".toList := by
  decide

/-- C9: for every request that fits the receive buffer and every
filesystem, a response is produced: `get_method` does not throw, the start
offset of the extension is at most the length of the path it is taken from,
so that `substr` does not throw either, and a throw inside `get_path` is
caught and gives the empty path. -/
theorem handle_no_uncaught_fault (fs : List Char → Option (List Char)) (req : List Char)
    (hfit : req.length ≤ BUFFER_SIZE) :
    (∃ resp, handle fs req = some resp) ∧
    (∃ m, get_method req = some m) ∧
    toSize (ext_start (resolve fs (default_path (get_path req))).2.2)
      ≤ (resolve fs (default_path (get_path req))).2.2.length ∧
    (∃ ext, get_ext (resolve fs (default_path (get_path req))).2.2 = some ext) ∧
    (get_path_try req = none → get_path req = []) := by
  have hq : (resolve fs (default_path (get_path req))).2.2.length + 2 < 2147483648 := by
    rcases resolve_path_cases fs (default_path (get_path req)) with h | h
    · rw [h]; decide
    · rw [h]; exact effective_bound hfit
  have hext := get_ext_eq _ hq
  have hle := extStart_le (resolve fs (default_path (get_path req))).2.2
  refine ⟨?_, get_method_isSome req, ?_, ⟨_, hext⟩, ?_⟩
  · rw [handle_eq_serve, serve_eq, hext]
    exact ⟨_, rfl⟩
  · rw [ext_start_eq _ hq, toSize_natCast (by omega)]
    exact hle
  · intro h
    unfold get_path
    rw [h]

/-- The empty request (C9): the `substr` of `get_path` throws, the throw is
caught, and the response is the one for the default path. -/
theorem handle_no_uncaught_fault_witness :
    get_path_try [] = none ∧
    ((∃ resp, handle siteFs [] = some resp) ∧
    (∃ m, get_method [] = some m) ∧
    toSize (ext_start (resolve siteFs (default_path (get_path []))).2.2)
      ≤ (resolve siteFs (default_path (get_path []))).2.2.length ∧
    (∃ ext, get_ext (resolve siteFs (default_path (get_path []))).2.2 = some ext) ∧
    (get_path_try [] = none → get_path [] = [])) :=
  ⟨by decide, handle_no_uncaught_fault siteFs [] (by decide)⟩

/-- C10: on a request `M ++ " " ++ [c] ++ " " ++ T` that fits the receive
buffer, with no space in `M`, `get_path` returns the empty string whatever
the character `c` is, so the effective path is `index.html` and the request
is served from `index.html`. -/
theorem skipped_char_empty_path (M T : List Char) (c : Char) (hM : ' ' ∉ M)
    (hfit : (M ++ " ".toList ++ [c] ++ " ".toList ++ T).length ≤ BUFFER_SIZE) :
    get_path (M ++ " ".toList ++ [c] ++ " ".toList ++ T) = [] ∧
    default_path (get_path (M ++ " ".toList ++ [c] ++ " ".toList ++ T))
      = "index.html".toList ∧
    ∀ fs, handle fs (M ++ " ".toList ++ [c] ++ " ".toList ++ T)
      = serve fs "index.html".toList := by
  have e : M ++ " ".toList ++ [c] ++ " ".toList ++ T
      = M ++ ' ' :: c :: ([] ++ ' ' :: T) := by
    have h1 : " ".toList = [' '] := rfl
    rw [h1]
    simp only [List.append_assoc, List.cons_append, List.nil_append]
  rw [e] at hfit ⊢
  have hp : get_path (M ++ ' ' :: c :: ([] ++ ' ' :: T)) = [] :=
    get_path_shape M [] T c hM (by simp) (fits_bound hfit)
  refine ⟨hp, ?_, ?_⟩
  · rw [hp]; rfl
  · intro fs
    rw [handle_eq_serve, hp]; rfl

/-- The root request (C10) is served from `index.html`. -/
theorem skipped_char_empty_path_witness :
    get_path "GET / HTTP/1.1\r\n\r\n".toList = [] ∧
    handle siteFs "GET / HTTP/1.1\r\n\r\n".toList = serve siteFs "index.html".toList :=
  have h := skipped_char_empty_path "GET".toList "HTTP/1.1\r\n\r\n".toList '/'
    (by decide) (by decide)
  ⟨h.1, h.2.2 siteFs⟩

/-- C6, as stated, fails: a path with line breaks after its dot that names a
non-empty file is copied into the header block; the first blank line then
comes before `Connection: close`, which is no header line any more, and what
follows the blank line is not the body. -/
theorem header_injection_counterexample :
    handle siteFs splitRequest = some "HTTP/1.1 200 OK\r\nContent-Type: text/css\r\nSet-Cookie:x=1\r\n\r\nboo\r\nConnection: close\r\n\r\nbody".toList ∧
    (resolve siteFs (default_path (get_path splitRequest))).1 = "body".toList ∧
    headerLines "HTTP/1.1 200 OK\r\nContent-Type: text/css\r\nSet-Cookie:x=1\r\n\r\nboo\r\nConnection: close\r\n\r\nbody".toList
      = some (["HTTP/1.1 200 OK".toList, "Content-Type: text/css".toList,
          "Set-Cookie:x=1".toList], "boo\r\nConnection: close\r\n\r\nbody".toList) ∧
    isFramed "HTTP/1.1 200 OK\r\nContent-Type: text/css\r\nSet-Cookie:x=1\r\n\r\nboo\r\nConnection: close\r\n\r\nbody".toList
      "body".toList = false := by
  decide

/-- C6, amended: whenever the status is 404, or the extension computed for
the header contains no `"\r\n"`, the header block of the response is the
status line, one `Content-Type` line and one `Connection: close` line, it
ends at the first blank line, and what follows is exactly the body. -/
theorem response_framed (fs : List Char → Option (List Char)) (req : List Char)
    (h : (resolve fs (default_path (get_path req))).2.1 = "404".toList ∨
      ∃ e, get_ext (resolve fs (default_path (get_path req))).2.2 = some e ∧
        hasCRLF e = false) :
    ∃ resp ext, get_ext (resolve fs (default_path (get_path req))).2.2 = some ext ∧
      handle fs req = some resp ∧
      headerLines resp = some
        (["HTTP/1.1 ".toList ++ (resolve fs (default_path (get_path req))).2.1 ++ " OK".toList,
          "Content-Type: text/".toList ++ ext, "Connection: close".toList],
         (resolve fs (default_path (get_path req))).1) ∧
      isFramed resp (resolve fs (default_path (get_path req))).1 = true := by
  have hx : ∃ e, get_ext (resolve fs (default_path (get_path req))).2.2 = some e ∧
      hasCRLF e = false := by
    rcases h with h | h
    · refine ⟨"html".toList, ?_, by decide⟩
      rw [resolve_path_of_404 h]
      exact get_ext_index
    · exact h
  obtain ⟨ext, hext, hcr⟩ := hx
  have hl : headerLines (build_response (resolve fs (default_path (get_path req))).2.1 ext
      (resolve fs (default_path (get_path req))).1) = some
        (["HTTP/1.1 ".toList ++ (resolve fs (default_path (get_path req))).2.1 ++ " OK".toList,
          "Content-Type: text/".toList ++ ext, "Connection: close".toList],
         (resolve fs (default_path (get_path req))).1) := by
    have h2 : hasCRLF ('C' :: ("ontent-Type: text/".toList ++ ext)) = false := by
      have := hasCRLF_append_of_not_mem "Content-Type: text/".toList ext (by decide)
      rw [hcr] at this
      exact this
    have h3 : hasCRLF ('C' :: "onnection: close".toList) = false := by decide
    rw [build_response_lines]
    rcases resolve_status_cases fs (default_path (get_path req)) with hs | hs
    · rw [hs]
      exact headerLines_three _ _ _ _ 'C' 'C' (by decide) h2 h3 (by decide) (by decide)
    · rw [hs]
      exact headerLines_three _ _ _ _ 'C' 'C' (by decide) h2 h3 (by decide) (by decide)
  refine ⟨_, ext, hext, ?_, hl, isFramed_of_lines hl⟩
  rw [handle_eq_serve, serve_eq, hext]
  rfl

/-- Scenario 4 of the specification, for C6: the 200 response for
`style.css`, whose extension `css` has no line break, is framed. -/
theorem response_framed_witness :
    (∃ e, get_ext (resolve siteFs
        (default_path (get_path "GET /style.css HTTP/1.1\r\n\r\n".toList))).2.2 = some e ∧
      hasCRLF e = false) ∧
    ∃ resp ext, get_ext (resolve siteFs
        (default_path (get_path "GET /style.css HTTP/1.1\r\n\r\n".toList))).2.2 = some ext ∧
      handle siteFs "GET /style.css HTTP/1.1\r\n\r\n".toList = some resp ∧
      headerLines resp = some
        (["HTTP/1.1 ".toList ++ (resolve siteFs
            (default_path (get_path "GET /style.css HTTP/1.1\r\n\r\n".toList))).2.1
            ++ " OK".toList,
          "Content-Type: text/".toList ++ ext, "Connection: close".toList],
         (resolve siteFs
            (default_path (get_path "GET /style.css HTTP/1.1\r\n\r\n".toList))).1) ∧
      isFramed resp (resolve siteFs
        (default_path (get_path "GET /style.css HTTP/1.1\r\n\r\n".toList))).1 = true :=
  ⟨⟨"css".toList, by decide, by decide⟩,
    response_framed siteFs "GET /style.css HTTP/1.1\r\n\r\n".toList
      (Or.inr ⟨"css".toList, by decide, by decide⟩)⟩

end HttpServer

